import Mathlib

/-!
Verification model of the edgar-export filing pipeline.

The Python sources under `src/` are shallowly embedded here:

* `src/app/Client.py` — `get_cik`, `_extract_filings`, `get_filings`,
  `get_filing_data`;
* `src/app/Stock.py` — `Stock.__init__` / `_init_filings`, the export
  noise filter `_is_xbrl_table`;
* `src/routes.py` — the `(ticker, years)` stock cache `get_stock`.

Modelling conventions:

* `datetime` values live on an abstract `Nat` time axis; the library
  parser `datetime.strptime(s, "%Y-%m-%d")` is a field `Env.strptime`
  of the environment, and `datetime.now()` is `Env.now`.  A concrete,
  executable model of the `"%Y-%m-%d"` parser (`strptimeYmd`) is
  provided and used to instantiate the environment on closed inputs.
* All HTTP traffic goes through environment functions
  (`Env.search`, `Env.fetchSub`, `Env.fetchPage`, `Env.manifest`);
  `Option`/status results model `_fetch_response` returning `None`
  and `requests` status codes.  Functions that issue requests also
  return the list of `NetCall`s they performed, so call-count
  properties are statements about that trace.
* Fallible Python paths (KeyError / IndexError / AttributeError on a
  single record, which the source catches and logs) are modelled with
  `Option`-valued field lookups; a failed lookup skips the record
  exactly where the source's `except` clause does.
* Python `str` helpers used by the source (`split`, `strip`, `lower`,
  `upper`) are re-implemented structurally over `String.data` so that
  closed instances evaluate inside the kernel.
-/

/-! ## Python string primitives -/

/-- Characters removed by Python's `str.strip()` (ASCII whitespace). -/
def pyIsSpace (c : Char) : Bool :=
  c == ' ' || c == '\t' || c == '\n' || c == '\r' || c == '\x0b' || c == '\x0c'

/-- Model of Python `str.strip()`. -/
def pyStrip (s : String) : String :=
  String.mk (((s.data.dropWhile pyIsSpace).reverse.dropWhile pyIsSpace).reverse)

/-- Model of Python `str.lower()` (ASCII range, which covers the
manifest names the source feeds it). -/
def pyLower (s : String) : String :=
  String.mk (s.data.map Char.toLower)

/-- Model of Python `str.upper()` (ASCII range). -/
def pyUpper (s : String) : String :=
  String.mk (s.data.map Char.toUpper)

/-- Whether the second character list starts with the first. -/
def charsStartsWith : List Char → List Char → Bool
  | [], _ => true
  | _ :: _, [] => false
  | p :: ps, c :: cs => p == c && charsStartsWith ps cs

/-- Fuel-driven worker for `pySplit`; the fuel is an upper bound on the
number of characters still to scan, so it never runs out when started
with the string's length. -/
def pySplitAux (sep : List Char) : Nat → List Char → List Char → List (List Char)
  | _, [], acc => [acc.reverse]
  | 0, cs, acc => [acc.reverse ++ cs]
  | fuel + 1, c :: cs, acc =>
    if charsStartsWith sep (c :: cs) then
      acc.reverse :: pySplitAux sep fuel (List.drop sep.length (c :: cs)) []
    else
      pySplitAux sep fuel cs (c :: acc)

/-- Model of Python `s.split(sep)` for a non-empty separator:
leftmost, non-overlapping occurrences of `sep` cut `s` into pieces. -/
def pySplit (sep : String) (s : String) : List String :=
  if sep.data.isEmpty then [s]
  else (pySplitAux sep.data s.data.length s.data []).map String.mk

/-! ## Model of `datetime.strptime(s, "%Y-%m-%d")`

CPython compiles `%Y-%m-%d` to (exactly-four-digit year)-(one-or-two
digit month `1..12`)-(one-or-two digit day `1..31`), requires the whole
string to be consumed, and then `datetime` validates the day against
the month/leap-year calendar and requires `year >= 1`.  A parsed date
is encoded as `y * 10000 + m * 100 + d`, which is strictly monotone in
calendar order. -/

def digitsToNat (cs : List Char) : Nat :=
  cs.foldl (fun n c => n * 10 + (c.toNat - 48)) 0

def allDig (cs : List Char) : Bool :=
  cs.all fun c => '0' ≤ c && c ≤ '9'

def isLeapYear (y : Nat) : Bool :=
  (y % 4 == 0 && y % 100 != 0) || y % 400 == 0

def daysInMonth (y m : Nat) : Nat :=
  if m == 2 then (if isLeapYear y then 29 else 28)
  else if m == 4 || m == 6 || m == 9 || m == 11 then 30
  else 31

/-- Executable model of `datetime.strptime(s, "%Y-%m-%d")`: `some`
(encoded date) on success, `none` where CPython raises `ValueError`. -/
def strptimeYmd (s : String) : Option Nat :=
  match pySplit "-" s with
  | [ys, ms, ds] =>
    if allDig ys.data && ys.length == 4
        && allDig ms.data && 1 ≤ ms.length && ms.length ≤ 2
        && allDig ds.data && 1 ≤ ds.length && ds.length ≤ 2 then
      let y := digitsToNat ys.data
      let m := digitsToNat ms.data
      let d := digitsToNat ds.data
      if 1 ≤ y && 1 ≤ m && m ≤ 12 && 1 ≤ d && d ≤ daysInMonth y m then
        some (y * 10000 + m * 100 + d)
      else none
    else none
  | _ => none

example : strptimeYmd "2024-03-15" = some 20240315 := by decide
example : strptimeYmd "garbage" = none := by decide
example : strptimeYmd "2023-02-29" = none := by decide
example : strptimeYmd "2024-02-29" = some 20240229 := by decide
example : pySplit " - " "004 - Statement - Balance Sheet"
    = ["004", "Statement", "Balance Sheet"] := by decide

/-! ## Data model -/

/-- One filing record, as assembled by `Client._extract_filings`
(`src/app/Client.py:134-139`). -/
structure Filing where
  accn : String
  form : String
  filingDate : String
  reportDate : String
deriving DecidableEq, Repr

/-- One raw submissions batch: the parallel arrays of
`filings.recent` or of one overflow page.  A `none` field models a
missing JSON key (Python `KeyError`); a too-short list models
`IndexError`.  Both are caught per-record by the source. -/
structure RawBatch where
  accessionNumber : Option (List String)
  form : Option (List String)
  filingDate : Option (List String)
  reportDate : Option (List String)
deriving Repr

/-- The submissions index document `CIK<cik>.json`: the inline
`filings.recent` batch plus the names of the overflow page files
(`filings.files[*].name`). -/
structure SubmissionsIndex where
  recent : RawBatch
  files : List String
deriving Repr

/-- Outcome of the full-text search request in `get_cik`: the HTTP
status, and the value of `results["hits"]["hits"][0]["_id"]` when that
JSON path exists (`none` models the `KeyError`/`IndexError` the source
catches). -/
structure SearchResp where
  status : Nat
  firstId : Option String
deriving Repr

/-- One `<report>` entry of `FilingSummary.xml` as seen through
BeautifulSoup: each field is `none` when the corresponding child tag is
absent (Python `AttributeError` on `.text`). -/
structure RawReport where
  shortname : Option String
  longname : Option String
  htmlfilename : Option String
  xmlfilename : Option String
deriving DecidableEq, Repr

/-- Response to the `FilingSummary.xml` request: status plus the parsed
`<myreports>` element (`none` when `soup.find("myreports")` finds
nothing). -/
structure ManifestResp where
  status : Nat
  myreports : Option (List RawReport)
deriving Repr

/-- A parsed report entry (`report_dict` in `get_filing_data`). -/
structure Report where
  name_short : String
  name_long : String
  url : String
deriving DecidableEq, Repr

/-- Network requests the pipeline can issue, for call-count reasoning. -/
inductive NetCall where
  | search (ticker : String)
  | subIndex (cik : String)
  | page (name : String)
  | filingData (cik : String) (accn : String)
deriving DecidableEq, Repr

/-- The external world: SEC endpoints (each returning the decoded shape
the source reads off the response) and the `datetime` library. -/
structure Env where
  search : String → SearchResp
  fetchSub : String → Option SubmissionsIndex
  fetchPage : String → Option RawBatch
  manifest : String → String → ManifestResp
  strptime : String → Option Nat
  now : Nat

/-! ## `Client.get_cik` (src/app/Client.py:25-76) -/

/-- The padding step `"0"*(10 - len(cik)) + cik`.  Note Python's
negative-repeat gives the empty string, matching `Nat` subtraction. -/
def padCik (cik : String) : String :=
  String.mk (List.replicate (10 - cik.length) '0') ++ cik

/-- Model of `Client.get_cik`: on HTTP 200 and a readable first hit,
the zero-padded id; on any other status or a failed JSON path, the
empty-string sentinel. -/
def get_cik (search : String → SearchResp) (ticker : String) : String :=
  let r := search ticker
  if r.status == 200 then
    match r.firstId with
    | some cik => padCik cik
    | none => ""
  else ""

/-! ## `Client._extract_filings` (src/app/Client.py:93-152)

The Python loop mutates `filings` (append-only) and
`oldest_date_seen`; the model folds the state
`(filings, oldest_date_seen)` over `enumerate(accession_numbers)`. -/

/-- The `filings.append({...})` statement: it only lands when the
`form` and `reportDate` lookups both succeed, otherwise the source's
`except (KeyError, IndexError)` skips the record. -/
def appendEntry (data : RawBatch) (fl : List Filing) (p : Nat × String)
    (ds : String) : List Filing :=
  match data.form.bind fun l => l.get? p.1, data.reportDate.bind fun l => l.get? p.1 with
  | some fm, some rd => fl ++ [⟨p.2, fm, ds, rd⟩]
  | _, _ => fl

/-- One iteration of the `_extract_filings` loop at `p = (i, accn)`. -/
def extractStep (env : Env) (cutoff : Option Nat) (data : RawBatch)
    (st : List Filing × Option Nat) (p : Nat × String) : List Filing × Option Nat :=
  match data.filingDate.bind fun l => l.get? p.1 with
  | none => st
  | some ds =>
    match cutoff with
    | none => (appendEntry data st.1 p ds, st.2)
    | some c =>
      let d := (env.strptime ds).getD env.now
      let o := some (match st.2 with | none => d | some x => min x d)
      if d < c then (st.1, o) else (appendEntry data st.1 p ds, o)

/-- Model of `Client._extract_filings`: merges the batch into
`filings` and returns the within-window flag. -/
def _extract_filings (env : Env) (data : RawBatch) (filings : List Filing)
    (cutoff : Option Nat) : List Filing × Bool :=
  let st := ((data.accessionNumber.getD []).enum).foldl
    (extractStep env cutoff data) (filings, none)
  match cutoff with
  | none => (st.1, true)
  | some c =>
    match st.2 with
    | none => (st.1, false)
    | some o => (st.1, decide (c ≤ o))

/-! ## `Client.get_filings` (src/app/Client.py:154-227) -/

/-- The overflow-page loop of `get_filings` (src/app/Client.py:205-224):
fetch each named page in listed order; a failed fetch is skipped
(logged) and the loop continues; a fetched batch is extracted, and with
an active cutoff the loop breaks right after the first batch whose
within-window flag is false.  Returns the merged filings and the list
of page names actually requested, in request order. -/
def pagesLoop (env : Env) (cutoff : Option Nat) :
    List String → List Filing → List Filing × List String
  | [], fl => (fl, [])
  | name :: rest, fl =>
    match env.fetchPage name with
    | none =>
      let r := pagesLoop env cutoff rest fl
      (r.1, name :: r.2)
    | some batch =>
      let e := _extract_filings env batch fl cutoff
      if cutoff.isSome && !e.2 then (e.1, [name])
      else
        let r := pagesLoop env cutoff rest e.1
        (r.1, name :: r.2)

/-- Model of `Client.get_filings`: fetch the submissions index (empty
result if that fails), extract the recent batch, return early when an
active cutoff rules the recent batch out of window, and otherwise walk
the overflow pages.  The second component is the trace of requests
issued. -/
def get_filings (env : Env) (cik : String) (cutoff : Option Nat) :
    List Filing × List NetCall :=
  match env.fetchSub cik with
  | none => ([], [NetCall.subIndex cik])
  | some sub =>
    let e := _extract_filings env sub.recent [] cutoff
    if cutoff.isSome && !e.2 then (e.1, [NetCall.subIndex cik])
    else
      let r := pagesLoop env cutoff sub.files e.1
      (r.1, NetCall.subIndex cik :: r.2.map NetCall.page)

/-! ## `Client.get_filing_data` (src/app/Client.py:229-286) -/

/-- Model of `str(int(cik))` for the digit strings the source feeds
it: leading zeros are dropped, an all-zero string becomes `"0"`. -/
def intStr (s : String) : String :=
  let t := s.data.dropWhile fun c => c == '0'
  if t.isEmpty then "0" else String.mk t

/-- The `base_url` of `get_filing_data` (src/app/Client.py:239-240):
the archive root, the de-zeroed CIK, and the de-hyphenated accession. -/
def filingBaseUrl (cik accn : String) : String :=
  "https://www.sec.gov/Archives/edgar/data/" ++ intStr cik ++ "/"
    ++ String.mk (accn.data.filter fun c => !(c == '-'))

/-- The category key `name_long.split(" - ")[1].strip().lower()`;
`none` models the `IndexError` when no index-1 segment exists. -/
def categoryOf (nameLong : String) : Option String :=
  ((pySplit " - " nameLong).get? 1).map fun seg => pyLower (pyStrip seg)

/-- Python-dict insertion: append to the category's list when the key
exists, else add the key at the end (dicts preserve insertion order). -/
def insertReport (m : List (String × List Report)) (k : String) (v : Report) :
    List (String × List Report) :=
  match m with
  | [] => [(k, [v])]
  | (k', vs) :: rest =>
    if k' == k then (k', vs ++ [v]) :: rest else (k', vs) :: insertReport rest k v

/-- One iteration of the report loop in `get_filing_data`: read the
names, resolve the URL (HTML file, falling back to XML file), derive
the category; any missing piece raises inside the `try` and the entry
is skipped. -/
def parseReportStep (base : String) (acc : List (String × List Report))
    (rep : RawReport) : List (String × List Report) :=
  match rep.shortname, rep.longname with
  | some s, some L =>
    match (match rep.htmlfilename with
           | some h => some (base ++ "/" ++ h)
           | none => rep.xmlfilename.map fun x => base ++ "/" ++ x) with
    | some url =>
      match categoryOf L with
      | some cat => insertReport acc cat ⟨s, L, url⟩
      | none => acc
    | none => acc
  | _, _ => acc

/-- The loop over `reports.find_all("report")[:-1]`. -/
def parseReports (base : String) (reps : List RawReport) :
    List (String × List Report) :=
  reps.foldl (parseReportStep base) []

/-- Model of `Client.get_filing_data`: `raise_for_status()` surfaces a
4xx/5xx manifest status as a hard error; a missing `<myreports>` root
yields the empty mapping; otherwise the entries bar the trailing
"all reports" summary are parsed into the category map. -/
def get_filing_data (env : Env) (cik accn : String) :
    Except Nat (List (String × List Report)) :=
  let r := env.manifest cik accn
  if 400 ≤ r.status ∧ r.status < 600 then Except.error r.status
  else
    match r.myreports with
    | none => Except.ok []
    | some reps => Except.ok (parseReports (filingBaseUrl cik accn) reps.dropLast)

/-! ## `Stock` (src/app/Stock.py) and the route cache (src/routes.py) -/

/-- The `{"metadata": filing, "reports": data}` record built by
`_init_filings`. -/
structure Bundle where
  metadata : Filing
  reports : List (String × List Report)
deriving DecidableEq, Repr

/-- The fields of a constructed `Stock` that the pipeline exposes. -/
structure StockVal where
  ticker : String
  cik : String
  filings : List Bundle
deriving DecidableEq, Repr

/-- The per-filing loop of `Stock._init_filings`
(src/app/Stock.py:77-104): skip forms outside `filing_forms` without a
request; otherwise call `get_filing_data` (one manifest request) and
keep the bundle on success, skipping indexer failures. -/
def initSelectLoop (env : Env) (cik : String) (filing_forms : List String) :
    List Filing → List Bundle × List NetCall
  | [] => ([], [])
  | f :: rest =>
    let r := initSelectLoop env cik filing_forms rest
    if filing_forms.contains f.form then
      match get_filing_data env cik f.accn with
      | Except.ok d => (⟨f, d⟩ :: r.1, NetCall.filingData cik f.accn :: r.2)
      | Except.error _ => (r.1, NetCall.filingData cik f.accn :: r.2)
    else r

/-- Model of `Stock._init_filings`: compute the cutoff
`datetime.now() - timedelta(days=365*years)`, enumerate filings bounded
by it, then index each retained filing whose form is tracked. -/
def _init_filings (env : Env) (cik : String) (years : Nat)
    (filing_forms : List String) : List Bundle × List NetCall :=
  let cutoff_date := env.now - 365 * years
  let r := get_filings env cik (some cutoff_date)
  let s := initSelectLoop env cik filing_forms r.1
  (s.1, r.2 ++ s.2)

/-- Model of `Stock.__init__`: uppercase the ticker, resolve the CIK
(one search request; an unresolved CIK is logged but construction
continues), then build the filings. -/
def Stock.build (env : Env) (ticker : String) (filing_forms : List String)
    (years : Nat) : StockVal × List NetCall :=
  let cik := get_cik env.search ticker
  let r := _init_filings env cik years filing_forms
  (⟨pyUpper ticker, cik, r.1⟩, NetCall.search ticker :: r.2)

/-- The module-level `stock_cache` of src/routes.py, keyed by
`(ticker.upper(), years)`. -/
def CacheMap : Type := List ((String × Nat) × StockVal)

def cacheLookup (st : CacheMap) (k : String × Nat) : Option StockVal :=
  match st with
  | [] => none
  | (k', v) :: rest => if k' = k then some v else cacheLookup rest k

def cacheInsert (st : CacheMap) (k : String × Nat) (v : StockVal) : CacheMap :=
  match st with
  | [] => [(k, v)]
  | (k', v') :: rest =>
    if k' = k then (k, v) :: rest else (k', v') :: cacheInsert rest k v

/-- Model of `get_stock` (src/routes.py:48-88) run to completion by one
caller: `none` without a session client; a cache hit returns the stored
stock with no requests; a miss builds the `Stock` with its default
forms `["10-K", "10-Q"]` and publishes it under the key.  (The per-key
lock only serialises concurrent callers; in this sequential model it
has no further effect.) -/
def get_stock (envOpt : Option Env) (st : CacheMap) (ticker : String)
    (years : Nat) : Option StockVal × CacheMap × List NetCall :=
  match envOpt with
  | none => (none, st, [])
  | some env =>
    let tU := pyUpper ticker
    match cacheLookup st (tU, years) with
    | some s => (some s, st, [])
    | none =>
      let b := Stock.build env tU ["10-K", "10-Q"] years
      (some b.1, cacheInsert st (tU, years) b.1, b.2)

/-! ## `Stock.export_url` noise filter (src/app/Stock.py:139-171)

A pandas table is abstracted to its sheet name and its first column
(`df.iloc[:, 0].tolist()`), the only data `_is_xbrl_table` reads. -/

def EXPECTED_FIRST_COLUMN : List String :=
  ["Name:", "Namespace Prefix:", "Data Type:", "Balance Type:", "Period Type:"]

/-- Model of `Stock._is_xbrl_table`. -/
def _is_xbrl_table (col0 : List String) : Bool :=
  col0 == EXPECTED_FIRST_COLUMN

/-- The filter step of `export_url`:
`[t for t in tables if not self._is_xbrl_table(t[1])]`. -/
def removeXbrlTables (tables : List (String × List String)) :
    List (String × List String) :=
  tables.filter fun t => !(_is_xbrl_table t.2)

/-! ## Specification-side definitions

These follow the spec's wording and are compared against the embedded
code in the claim theorems. -/

/-- The parsed date of each position of a batch whose `filingDate`
entry is retrievable, an unparseable string standing in for "now"
(spec §4.3: the dates tracked "across the entire batch regardless of
whether individual records were appended"). -/
def batchDates (env : Env) (data : RawBatch) : List Nat :=
  ((data.accessionNumber.getD []).enum).filterMap fun p =>
    (data.filingDate.bind fun l => l.get? p.1).map fun s =>
      (env.strptime s).getD env.now

/-- Running minimum over an optional accumulator, the shape of the
source's `oldest_date_seen` update. -/
def minStep (o : Option Nat) (d : Nat) : Option Nat :=
  some (match o with | none => d | some x => min x d)

/-- The oldest date seen across a batch (spec §4.3). -/
def oldestOf (ds : List Nat) : Option Nat :=
  ds.foldl minStep none

/-- Records contributed by one overflow page on its own (empty when the
page fetch fails). -/
def pageRecs (env : Env) (cutoff : Option Nat) (name : String) : List Filing :=
  match env.fetchPage name with
  | none => []
  | some b => (_extract_filings env b [] cutoff).1

/-- The within-window verdict of one overflow page's batch (true for a
page that yields no batch, which can never stop the loop). -/
def pageWithin (env : Env) (c : Nat) (name : String) : Bool :=
  match env.fetchPage name with
  | none => true
  | some b => (_extract_filings env b [] (some c)).2

/-- Spec §4.3 step 4, in the spec's words: fetch overflow pages one at
a time in listed order and stop as soon as one batch is
not-within-window (that batch's page is the last one fetched). -/
def specListedOrderFetches (withinOf : String → Bool) : List String → List String
  | [] => []
  | n :: rest =>
    if withinOf n then n :: specListedOrderFetches withinOf rest else [n]

/-! ## Helper lemmas about `_extract_filings` -/

theorem appendEntry_delta (data : RawBatch) (fl : List Filing) (p : Nat × String)
    (ds : String) :
    appendEntry data fl p ds = fl ++ appendEntry data [] p ds := by
  unfold appendEntry
  rcases data.form.bind fun l => l.get? p.1 with _ | fm <;>
    rcases data.reportDate.bind fun l => l.get? p.1 with _ | rd <;> simp

theorem extractStep_delta (env : Env) (cutoff : Option Nat) (data : RawBatch)
    (fl : List Filing) (o : Option Nat) (p : Nat × String) :
    extractStep env cutoff data (fl, o) p
      = (fl ++ (extractStep env cutoff data ([], o) p).1,
         (extractStep env cutoff data ([], o) p).2) := by
  unfold extractStep
  rcases data.filingDate.bind fun l => l.get? p.1 with _ | ds
  · simp
  · rcases cutoff with _ | c
    · simpa using appendEntry_delta data fl p ds
    · simp only []
      by_cases hd : (env.strptime ds).getD env.now < c <;>
        simp [hd, appendEntry_delta data fl p ds]

theorem foldl_extract_delta (env : Env) (cutoff : Option Nat) (data : RawBatch) :
    ∀ (l : List (Nat × String)) (fl : List Filing) (o : Option Nat),
    List.foldl (extractStep env cutoff data) (fl, o) l
      = (fl ++ (List.foldl (extractStep env cutoff data) ([], o) l).1,
         (List.foldl (extractStep env cutoff data) ([], o) l).2) := by
  intro l
  induction l with
  | nil => intro fl o; simp
  | cons p l ih =>
    intro fl o
    simp only [List.foldl_cons]
    rw [extractStep_delta env cutoff data fl o p]
    rcases h : extractStep env cutoff data ([], o) p with ⟨a, b⟩
    rw [ih (fl ++ a) b, ih a b]
    simp

/-- Merging a batch into `filings` appends exactly the records the
batch contributes on its own, and the within-window flag does not
depend on the incoming list. -/
theorem extract_delta (env : Env) (data : RawBatch) (fl : List Filing)
    (cutoff : Option Nat) :
    _extract_filings env data fl cutoff
      = (fl ++ (_extract_filings env data [] cutoff).1,
         (_extract_filings env data [] cutoff).2) := by
  unfold _extract_filings
  rw [foldl_extract_delta env cutoff data _ fl none]
  rcases cutoff with _ | c
  · simp
  · rcases h : (List.foldl (extractStep env (some c) data) ([], none)
      ((data.accessionNumber.getD []).enum)).2 with _ | o <;> simp [h]

theorem foldl_extract_oldest (env : Env) (c : Nat) (data : RawBatch) :
    ∀ (l : List (Nat × String)) (fl : List Filing) (o : Option Nat),
    (List.foldl (extractStep env (some c) data) (fl, o) l).2
      = List.foldl minStep o (l.filterMap fun p =>
          (data.filingDate.bind fun t => t.get? p.1).map fun s =>
            (env.strptime s).getD env.now) := by
  intro l
  induction l with
  | nil => intro fl o; simp
  | cons p l ih =>
    intro fl o
    simp only [List.foldl_cons, List.filterMap_cons]
    rcases h : data.filingDate.bind fun t => t.get? p.1 with _ | ds
    · have hstep : extractStep env (some c) data (fl, o) p = (fl, o) := by
        simp only [extractStep]
        rw [h]
      rw [hstep, ih fl o]
      simp [h]
    · by_cases hd : (env.strptime ds).getD env.now < c
      · have hstep : extractStep env (some c) data (fl, o) p
            = (fl, minStep o ((env.strptime ds).getD env.now)) := by
          simp only [extractStep]
          rw [h]
          simp [hd, minStep]
        rw [hstep, ih]
        simp [h, List.foldl_cons]
      · have hstep : extractStep env (some c) data (fl, o) p
            = (appendEntry data fl p ds, minStep o ((env.strptime ds).getD env.now)) := by
          simp only [extractStep]
          rw [h]
          simp [hd, minStep]
        rw [hstep, ih]
        simp [h, List.foldl_cons]

/-- The within-window flag of `_extract_filings` with an active cutoff
is exactly the test "the oldest date seen across the entire batch is
on/after the cutoff", with `false` when no date could be read. -/
theorem extract_flag_eq_oldest (env : Env) (data : RawBatch) (fl : List Filing)
    (c : Nat) :
    (_extract_filings env data fl (some c)).2
      = match oldestOf (batchDates env data) with
        | none => false
        | some o => decide (c ≤ o) := by
  have h1 := foldl_extract_oldest env c data ((data.accessionNumber.getD []).enum) fl none
  simp only [_extract_filings]
  rcases hst : List.foldl (extractStep env (some c) data) (fl, none)
      ((data.accessionNumber.getD []).enum) with ⟨a, b⟩
  rw [hst] at h1
  unfold oldestOf batchDates
  rw [← h1]
  rcases b with _ | o <;> simp

theorem mem_appendEntry (data : RawBatch) (fl : List Filing) (p : Nat × String)
    (ds : String) (f : Filing) :
    f ∈ appendEntry data fl p ds → f ∈ fl ∨ f.filingDate = ds := by
  unfold appendEntry
  rcases data.form.bind fun l => l.get? p.1 with _ | fm <;>
    rcases data.reportDate.bind fun l => l.get? p.1 with _ | rd <;>
      intro h
  · exact Or.inl h
  · exact Or.inl h
  · exact Or.inl h
  · rcases List.mem_append.mp h with hl | hr
    · exact Or.inl hl
    · right
      rcases List.mem_singleton.mp hr with rfl
      rfl

theorem foldl_extract_mem (env : Env) (c : Nat) (data : RawBatch) :
    ∀ (l : List (Nat × String)) (fl : List Filing) (o : Option Nat) (f : Filing),
    f ∈ (List.foldl (extractStep env (some c) data) (fl, o) l).1 →
    f ∈ fl ∨ ¬((env.strptime f.filingDate).getD env.now < c) := by
  intro l
  induction l with
  | nil => intro fl o f hf; exact Or.inl (by simpa using hf)
  | cons p l ih =>
    intro fl o f hf
    rw [List.foldl_cons] at hf
    rcases h : data.filingDate.bind fun t => t.get? p.1 with _ | ds
    · have hstep : extractStep env (some c) data (fl, o) p = (fl, o) := by
        simp only [extractStep]
        rw [h]
      rw [hstep] at hf
      exact ih fl o f hf
    · by_cases hd : (env.strptime ds).getD env.now < c
      · have hstep : extractStep env (some c) data (fl, o) p
            = (fl, minStep o ((env.strptime ds).getD env.now)) := by
          simp only [extractStep]
          rw [h]
          simp [hd, minStep]
        rw [hstep] at hf
        exact ih _ _ f hf
      · have hstep : extractStep env (some c) data (fl, o) p
            = (appendEntry data fl p ds, minStep o ((env.strptime ds).getD env.now)) := by
          simp only [extractStep]
          rw [h]
          simp [hd, minStep]
        rw [hstep] at hf
        rcases ih _ _ f hf with hin | hok
        · rcases mem_appendEntry data fl p ds f hin with hfl | hdate
          · exact Or.inl hfl
          · right
            rw [hdate]
            exact hd
        · exact Or.inr hok

/-- Whatever is already in the incoming list stays in the result. -/
theorem foldl_extract_mono (env : Env) (cutoff : Option Nat) (data : RawBatch)
    (l : List (Nat × String)) (fl : List Filing) (o : Option Nat) (f : Filing)
    (hf : f ∈ fl) :
    f ∈ (List.foldl (extractStep env cutoff data) (fl, o) l).1 := by
  rw [foldl_extract_delta env cutoff data l fl o]
  exact List.mem_append_left _ hf

/-- A record at position `i` whose four parallel-array entries are all
readable and whose parsed date is on/after the cutoff is appended, no
matter what the rest of the batch holds. -/
theorem foldl_extract_mem_of_kept (env : Env) (c : Nat) (data : RawBatch) :
    ∀ (l : List (Nat × String)) (fl : List Filing) (o : Option Nat)
      (i : Nat) (accn ds fm rd : String),
    (i, accn) ∈ l →
    (data.filingDate.bind fun t => t.get? i) = some ds →
    (data.form.bind fun t => t.get? i) = some fm →
    (data.reportDate.bind fun t => t.get? i) = some rd →
    ¬((env.strptime ds).getD env.now < c) →
    (⟨accn, fm, ds, rd⟩ : Filing)
      ∈ (List.foldl (extractStep env (some c) data) (fl, o) l).1 := by
  intro l
  induction l with
  | nil => intro fl o i accn ds fm rd hmem; simp at hmem
  | cons p l ih =>
    intro fl o i accn ds fm rd hmem hds hfm hrd hkeep
    rcases List.mem_cons.mp hmem with rfl | htail
    · rw [List.foldl_cons]
      have hstep : extractStep env (some c) data (fl, o) (i, accn)
          = (fl ++ [⟨accn, fm, ds, rd⟩],
             minStep o ((env.strptime ds).getD env.now)) := by
        simp only [extractStep, appendEntry]
        rw [hds, hfm, hrd]
        simp [hkeep, minStep]
      rw [hstep]
      exact foldl_extract_mono env (some c) data l _ _ _
        (List.mem_append_right _ (List.mem_singleton.mpr rfl))
    · rw [List.foldl_cons]
      rcases hst : extractStep env (some c) data (fl, o) p with ⟨fl', o'⟩
      exact ih fl' o' i accn ds fm rd htail hds hfm hrd hkeep

/-! ## Helper lemmas about the overflow-page loop -/

/-- Without a cutoff the loop never breaks: every listed page is
requested, in listed order. -/
theorem pagesLoop_trace_none (env : Env) :
    ∀ (files : List String) (fl : List Filing),
    (pagesLoop env none files fl).2 = files := by
  intro files
  induction files with
  | nil => intro fl; rfl
  | cons name rest ih =>
    intro fl
    simp only [pagesLoop]
    rcases env.fetchPage name with _ | batch
    · simp [ih]
    · simp [ih]

/-- Without a cutoff the loop appends each page's own contribution, in
listed order (a failed page contributes nothing). -/
theorem pagesLoop_recs_none (env : Env) :
    ∀ (files : List String) (fl : List Filing),
    (pagesLoop env none files fl).1
      = fl ++ (files.map (pageRecs env none)).flatten := by
  intro files
  induction files with
  | nil => intro fl; simp [pagesLoop]
  | cons name rest ih =>
    intro fl
    simp only [pagesLoop, List.map_cons, List.flatten]
    rcases h : env.fetchPage name with _ | batch
    · simp [ih, pageRecs, h]
    · simp only [Option.isSome_none, Bool.false_and, if_neg]
      rw [extract_delta env batch fl none]
      simp [ih, pageRecs, h, List.append_assoc]

/-- With an active cutoff and every page fetch succeeding, the loop's
request trace is exactly the spec's listed-order walk that stops right
after the first not-within-window batch. -/
theorem pagesLoop_trace_some (env : Env) (c : Nat) :
    ∀ (files : List String) (fl : List Filing),
    (∀ n ∈ files, (env.fetchPage n).isSome) →
    (pagesLoop env (some c) files fl).2
      = specListedOrderFetches (pageWithin env c) files := by
  intro files
  induction files with
  | nil => intro fl _; rfl
  | cons name rest ih =>
    intro fl hall
    have hname := hall name (List.mem_cons_self name rest)
    rcases hb : env.fetchPage name with _ | batch
    · rw [hb] at hname; simp at hname
    · have hwithin : pageWithin env c name = (_extract_filings env batch [] (some c)).2 := by
        simp [pageWithin, hb]
      simp only [pagesLoop, hb, specListedOrderFetches, hwithin]
      rw [extract_delta env batch fl (some c)]
      rcases hfl : (_extract_filings env batch [] (some c)).2 with _ | _
      · simp
      · simp only [Bool.not_true, Option.isSome_some, Bool.and_false, if_neg]
        simp [ih _ fun n hn => hall n (List.mem_cons_of_mem _ hn)]

/-- The trace of a non-empty page list always begins with the first
listed page: the loop requests it before it can decide anything. -/
theorem pagesLoop_trace_head (env : Env) (cutoff : Option Nat) (name : String)
    (rest : List String) (fl : List Filing) :
    ∃ t, (pagesLoop env cutoff (name :: rest) fl).2 = name :: t := by
  simp only [pagesLoop]
  rcases env.fetchPage name with _ | batch
  · exact ⟨_, rfl⟩
  · rcases h : cutoff.isSome && !(_extract_filings env batch fl cutoff).2 with _ | _
    · simp only [h]
      exact ⟨_, rfl⟩
    · simp only [h]
      exact ⟨_, rfl⟩

/-- A fetch failure on the head page skips its records and continues
with the remaining pages unchanged. -/
theorem pagesLoop_skip_failed (env : Env) (cutoff : Option Nat) (name : String)
    (rest : List String) (fl : List Filing) (hfail : env.fetchPage name = none) :
    pagesLoop env cutoff (name :: rest) fl
      = ((pagesLoop env cutoff rest fl).1,
         name :: (pagesLoop env cutoff rest fl).2) := by
  simp only [pagesLoop, hfail]

/-! ## Helper lemmas about the cache -/

theorem cacheLookup_insert (st : CacheMap) (k : String × Nat) (v : StockVal) :
    cacheLookup (cacheInsert st k v) k = some v := by
  induction st with
  | nil => simp [cacheInsert, cacheLookup]
  | cons e rest ih =>
    rcases e with ⟨k', v'⟩
    by_cases hk : k' = k
    · simp [cacheInsert, hk, cacheLookup]
    · simp [cacheInsert, hk, cacheLookup, ih]

/-- The records component of `_extract_filings` is the fold's records
component, whatever the flag turns out to be. -/
theorem extract_fst (env : Env) (data : RawBatch) (fl : List Filing)
    (cutoff : Option Nat) :
    (_extract_filings env data fl cutoff).1
      = (List.foldl (extractStep env cutoff data) (fl, none)
          ((data.accessionNumber.getD []).enum)).1 := by
  simp only [_extract_filings]
  rcases hst : List.foldl (extractStep env cutoff data) (fl, none)
      ((data.accessionNumber.getD []).enum) with ⟨a, b⟩
  rcases cutoff with _ | c
  · rfl
  · rcases b with _ | o <;> rfl

/-! ## Claim theorems -/

/-- C1: for a submissions index, `get_filings` requests overflow pages
exactly in listed order: without a window it requests every page and
concatenates each page's extracted records; with a window it requests
no page when the recent batch is not within window, and otherwise
(pages all fetchable) requests pages one at a time, stopping right
after the first not-within-window batch so that no later page is
requested. -/
theorem c1_overflow_pagination (env : Env) (cik : String) (sub : SubmissionsIndex)
    (hsub : env.fetchSub cik = some sub) :
    ((get_filings env cik none).2
        = NetCall.subIndex cik :: sub.files.map NetCall.page
      ∧ (get_filings env cik none).1
        = (_extract_filings env sub.recent [] none).1
            ++ (sub.files.map (pageRecs env none)).flatten)
    ∧ (∀ c : Nat, (_extract_filings env sub.recent [] (some c)).2 = false →
        (get_filings env cik (some c)).2 = [NetCall.subIndex cik])
    ∧ (∀ c : Nat, (_extract_filings env sub.recent [] (some c)).2 = true →
        (∀ n ∈ sub.files, (env.fetchPage n).isSome) →
        (get_filings env cik (some c)).2
          = NetCall.subIndex cik
              :: (specListedOrderFetches (pageWithin env c) sub.files).map NetCall.page) := by
  refine ⟨⟨?_, ?_⟩, ?_, ?_⟩
  · simp only [get_filings, hsub, Option.isSome_none, Bool.false_and, if_neg]
    rw [pagesLoop_trace_none]
    simp
  · simp only [get_filings, hsub, Option.isSome_none, Bool.false_and, if_neg]
    rw [pagesLoop_recs_none]
    simp
  · intro c hrec
    simp only [get_filings, hsub, hrec]
    simp
  · intro c hrec hall
    simp only [get_filings, hsub, hrec]
    simp only [Option.isSome_some, Bool.not_true, Bool.and_false, if_neg]
    rw [pagesLoop_trace_some env c sub.files _ hall]
    simp

/-- C2 (amended): with an active cutoff, `_extract_filings` appends no
record whose parsed date precedes the cutoff but keeps scanning — any
readable record with a date on/after the cutoff is appended no matter
where it sits; an unparseable date string counts as "now", hence is
retained whenever the cutoff is not in the future; the flag is true iff
the oldest date seen across the whole batch (skipped records included)
is on/after the cutoff; a batch with no readable date string at all
yields a false flag; and without a cutoff the flag is always true. -/
theorem c2_extract_batch (env : Env) (data : RawBatch) (fl : List Filing)
    (c : Nat) :
    ((_extract_filings env data fl none).2 = true)
    ∧ (∀ f ∈ (_extract_filings env data fl (some c)).1,
        f ∈ fl ∨ ¬((env.strptime f.filingDate).getD env.now < c))
    ∧ (∀ (i : Nat) (accn ds fm rd : String),
        (data.accessionNumber.getD []).get? i = some accn →
        (data.filingDate.bind fun t => t.get? i) = some ds →
        (data.form.bind fun t => t.get? i) = some fm →
        (data.reportDate.bind fun t => t.get? i) = some rd →
        ¬((env.strptime ds).getD env.now < c) →
        (⟨accn, fm, ds, rd⟩ : Filing) ∈ (_extract_filings env data fl (some c)).1)
    ∧ (c ≤ env.now →
        ∀ (i : Nat) (accn ds fm rd : String),
        (data.accessionNumber.getD []).get? i = some accn →
        (data.filingDate.bind fun t => t.get? i) = some ds →
        (data.form.bind fun t => t.get? i) = some fm →
        (data.reportDate.bind fun t => t.get? i) = some rd →
        env.strptime ds = none →
        (⟨accn, fm, ds, rd⟩ : Filing) ∈ (_extract_filings env data fl (some c)).1)
    ∧ ((_extract_filings env data fl (some c)).2
        = match oldestOf (batchDates env data) with
          | none => false
          | some o => decide (c ≤ o))
    ∧ (batchDates env data = [] → (_extract_filings env data fl (some c)).2 = false) := by
  have hkept : ∀ (i : Nat) (accn ds fm rd : String),
      (data.accessionNumber.getD []).get? i = some accn →
      (data.filingDate.bind fun t => t.get? i) = some ds →
      (data.form.bind fun t => t.get? i) = some fm →
      (data.reportDate.bind fun t => t.get? i) = some rd →
      ¬((env.strptime ds).getD env.now < c) →
      (⟨accn, fm, ds, rd⟩ : Filing) ∈ (_extract_filings env data fl (some c)).1 := by
    intro i accn ds fm rd hacc hds hfm hrd hkeep
    have henum : ((data.accessionNumber.getD []).enum).get? i = some (i, accn) := by
      rw [List.get?_enum, hacc]
      rfl
    have hmem := List.get?_mem henum
    rw [extract_fst]
    exact foldl_extract_mem_of_kept env c data _ fl none i accn ds fm rd hmem hds hfm hrd hkeep
  refine ⟨?_, ?_, hkept, ?_, ?_, ?_⟩
  · rfl
  · intro f hf
    rw [extract_fst] at hf
    exact foldl_extract_mem env c data _ fl none f hf
  · intro hc i accn ds fm rd hacc hds hfm hrd hparse
    refine hkept i accn ds fm rd hacc hds hfm hrd ?_
    rw [hparse]
    simpa using Nat.not_lt.mpr hc
  · exact extract_flag_eq_oldest env data fl c
  · intro hempty
    rw [extract_flag_eq_oldest env data fl c, hempty]
    rfl

/-- An entry whose `longname` has no index-1 segment after splitting on
`" - "` contributes nothing, whatever its other fields hold. -/
theorem parseReportStep_malformed (base : String) (acc : List (String × List Report))
    (m : RawReport) (L : String) (hL : m.longname = some L)
    (hseg : (pySplit " - " L).get? 1 = none) :
    parseReportStep base acc m = acc := by
  rcases m with ⟨sn, ln, hf, xf⟩
  simp only at hL
  subst hL
  rcases sn with _ | s
  · rfl
  · rcases hf with _ | h
    · rcases xf with _ | x
      · rfl
      · simp only [parseReportStep, categoryOf]
        rw [hseg]
        rfl
    · simp only [parseReportStep, categoryOf]
      rw [hseg]
      rfl

/-- C5: two sequential `get_stock` calls with the same ticker and year
window: the second call issues no network request, returns the same
stock value, and leaves the cache unchanged. -/
theorem c5_idempotent_cache (envOpt : Option Env) (st : CacheMap)
    (ticker : String) (years : Nat) :
    (get_stock envOpt (get_stock envOpt st ticker years).2.1 ticker years).2.2 = []
    ∧ (get_stock envOpt (get_stock envOpt st ticker years).2.1 ticker years).1
        = (get_stock envOpt st ticker years).1
    ∧ (get_stock envOpt (get_stock envOpt st ticker years).2.1 ticker years).2.1
        = (get_stock envOpt st ticker years).2.1 := by
  rcases envOpt with _ | env
  · exact ⟨rfl, rfl, rfl⟩
  · simp only [get_stock]
    rcases h : cacheLookup st (pyUpper ticker, years) with _ | s
    · simp [cacheLookup_insert]
    · simp [h]

/-- C6: `get_filing_data` surfaces a 4xx/5xx manifest status as a hard
error (`raise_for_status`), while a successfully fetched manifest with
no report root yields the empty mapping, not an error. -/
theorem c6_manifest_error_vs_empty (env : Env) (cik accn : String) :
    (∀ s : Nat, 400 ≤ s → s < 600 → (env.manifest cik accn).status = s →
        get_filing_data env cik accn = Except.error s)
    ∧ ((env.manifest cik accn).status = 200 →
        (env.manifest cik accn).myreports = none →
        get_filing_data env cik accn = Except.ok []) := by
  constructor
  · intro s h4 h6 hs
    simp only [get_filing_data]
    rw [hs, if_pos ⟨h4, h6⟩]
  · intro hs hrep
    simp only [get_filing_data]
    rw [hs, hrep]
    norm_num

/-- C7 (amended): `get_cik` returns either the empty-string sentinel or
the first hit's raw id left-padded with `'0'`; the padded identifier
has exactly 10 characters whenever the raw id has at most 10. -/
theorem c7_cik_padding (search : String → SearchResp) (ticker : String) :
    (get_cik search ticker = ""
      ∨ ∃ cik : String, (search ticker).firstId = some cik
          ∧ get_cik search ticker = padCik cik)
    ∧ (∀ cik : String, (search ticker).status = 200 →
        (search ticker).firstId = some cik →
        cik.length ≤ 10 → (get_cik search ticker).length = 10) := by
  constructor
  · by_cases hs : (search ticker).status == 200
    · rcases hf : (search ticker).firstId with _ | cik
      · left
        simp [get_cik, hs, hf]
      · right
        exact ⟨cik, rfl, by simp [get_cik, hs, hf]⟩
    · left
      simp [get_cik, hs]
  · intro cik hs hf hlen
    have hg : get_cik search ticker = padCik cik := by
      simp [get_cik, hs, hf]
    rw [hg]
    unfold padCik
    rw [String.length_append, String.length_mk, List.length_replicate]
    omega

/-- C8: the category of a manifest entry is the segment after the first
`" - "` of its long name, trimmed and lower-cased (the example long
name yields `"statement"`); an entry with no such segment is skipped
without aborting the call, which still returns the remaining parsed
categories. -/
theorem c8_category_derivation :
    (∀ (base : String) (pre post : List RawReport) (m : RawReport) (L : String),
      m.longname = some L → (pySplit " - " L).get? 1 = none →
      parseReports base (pre ++ m :: post) = parseReports base (pre ++ post))
    ∧ (∀ (base s L h : String) (x : Option String) (seg : String),
      (pySplit " - " L).get? 1 = some seg →
      parseReports base [⟨some s, some L, some h, x⟩]
        = [(pyLower (pyStrip seg), [⟨s, L, base ++ "/" ++ h⟩])])
    ∧ categoryOf "004 - Statement - Balance Sheet" = some "statement"
    ∧ (∀ (env : Env) (cik accn : String) (pre post : List RawReport)
        (m lastR : RawReport) (L : String),
      (env.manifest cik accn).status = 200 →
      (env.manifest cik accn).myreports = some ((pre ++ m :: post) ++ [lastR]) →
      m.longname = some L → (pySplit " - " L).get? 1 = none →
      get_filing_data env cik accn
        = Except.ok (parseReports (filingBaseUrl cik accn) (pre ++ post))) := by
  have hskip : ∀ (base : String) (pre post : List RawReport) (m : RawReport)
      (L : String), m.longname = some L → (pySplit " - " L).get? 1 = none →
      parseReports base (pre ++ m :: post) = parseReports base (pre ++ post) := by
    intro base pre post m L hL hseg
    unfold parseReports
    rw [List.foldl_append, List.foldl_append, List.foldl_cons,
        parseReportStep_malformed base _ m L hL hseg]
  refine ⟨hskip, ?_, by decide, ?_⟩
  · intro base s L h x seg hseg
    simp only [parseReports, List.foldl_cons, List.foldl_nil, parseReportStep,
      categoryOf]
    rw [hseg]
    simp [insertReport]
  · intro env cik accn pre post m lastR L hs hrep hL hseg
    simp only [get_filing_data]
    rw [hs, hrep, if_neg (by norm_num)]
    show Except.ok (parseReports (filingBaseUrl cik accn)
        (((pre ++ m :: post) ++ [lastR]).dropLast)) = _
    rw [List.dropLast_concat]
    exact congrArg Except.ok (hskip _ pre post m L hL hseg)

/-- C9: the export step discards a table iff its first column is
exactly the five XBRL boilerplate labels; a first column made of the
first four labels plus a different fifth row is kept. -/
theorem c9_xbrl_noise_filter (t : String × List String)
    (ts : List (String × List String)) :
    (t ∈ removeXbrlTables ts ↔ t ∈ ts ∧ t.2 ≠ EXPECTED_FIRST_COLUMN)
    ∧ _is_xbrl_table
        ["Name:", "Namespace Prefix:", "Data Type:", "Balance Type:", "Extra Row"]
        = false
    ∧ ("Table_1", ["Name:", "Namespace Prefix:", "Data Type:", "Balance Type:", "Extra Row"])
        ∈ removeXbrlTables
          [("Table_1", ["Name:", "Namespace Prefix:", "Data Type:", "Balance Type:", "Extra Row"])] := by
  refine ⟨?_, by decide, by decide⟩
  simp [removeXbrlTables, List.mem_filter, _is_xbrl_table]

/-- C10: with an active cutoff, a failed overflow-page fetch skips that
page's records but never terminates pagination: the loop proceeds to
the remaining (older) pages, so the stop signal the failed page might
have carried is lost and the next page is still requested. -/
theorem c10_failed_page_continues (env : Env) (cik : String)
    (sub : SubmissionsIndex) (c : Nat) (name : String) (rest : List String)
    (hsub : env.fetchSub cik = some sub)
    (hfiles : sub.files = name :: rest)
    (hrecent : (_extract_filings env sub.recent [] (some c)).2 = true)
    (hfail : env.fetchPage name = none) :
    (get_filings env cik (some c)).1
      = (pagesLoop env (some c) rest (_extract_filings env sub.recent [] (some c)).1).1
    ∧ (get_filings env cik (some c)).2
      = NetCall.subIndex cik :: NetCall.page name
          :: (pagesLoop env (some c) rest
              (_extract_filings env sub.recent [] (some c)).1).2.map NetCall.page
    ∧ (∀ (r : String) (rest' : List String), rest = r :: rest' →
        NetCall.page r ∈ (get_filings env cik (some c)).2) := by
  have hmain : get_filings env cik (some c)
      = ((pagesLoop env (some c) rest (_extract_filings env sub.recent [] (some c)).1).1,
         NetCall.subIndex cik :: NetCall.page name
           :: (pagesLoop env (some c) rest
               (_extract_filings env sub.recent [] (some c)).1).2.map NetCall.page) := by
    simp only [get_filings, hsub, hrecent, hfiles]
    rw [pagesLoop_skip_failed env (some c) name rest _ hfail]
    simp
  refine ⟨by rw [hmain], by rw [hmain], ?_⟩
  intro r rest' hr
  rw [hmain, hr]
  rcases pagesLoop_trace_head env (some c) r rest'
      (_extract_filings env sub.recent [] (some c)).1 with ⟨tr, htr⟩
  rw [htr]
  simp

/-- C3 (amended): when identifier resolution yields the empty-string
sentinel and the submissions fetch for the empty identifier fails (as
it does against the real registry), an uncached `get_stock` still
returns a present stock — with empty filings — and issues exactly the
resolution request plus one submissions-index request: no overflow-page
and no report request. -/
theorem c3_unresolved_builds_empty (env : Env) (st : CacheMap) (ticker : String)
    (years : Nat)
    (hcik : get_cik env.search (pyUpper ticker) = "")
    (hsub : env.fetchSub "" = none)
    (hmiss : cacheLookup st (pyUpper ticker, years) = none) :
    ∃ s : StockVal, (get_stock (some env) st ticker years).1 = some s
      ∧ s.cik = "" ∧ s.filings = []
      ∧ (get_stock (some env) st ticker years).2.2
          = [NetCall.search (pyUpper ticker), NetCall.subIndex ""] := by
  simp only [get_stock, hmiss]
  simp only [Stock.build, _init_filings, hcik, get_filings, hsub]
  exact ⟨_, rfl, rfl, rfl, rfl⟩

/-! ## Concrete instances

Closed environments used to exhibit counterexamples and to evaluate the
claim theorems on concrete inputs. -/

/-- A registry stub: the search matches nothing readable, every
plain fetch fails, the manifest endpoint answers 404. -/
def envStub : Env :=
  ⟨fun _ => ⟨200, none⟩, fun _ => none, fun _ => none,
   fun _ _ => ⟨404, none⟩, strptimeYmd, 10⟩

/-- A single-record batch whose only date string does not parse. -/
def batchG : RawBatch :=
  ⟨some ["g1"], some ["10-K"], some ["garbage"], some ["d1"]⟩

def batchRecentW : RawBatch :=
  ⟨some ["r1", "r2"], some ["10-K", "10-Q"],
   some ["2024-06-01", "2024-03-15"], some ["d1", "d2"]⟩

def batchP1W : RawBatch :=
  ⟨some ["p1a"], some ["10-K"], some ["2024-03-02"], some ["e1"]⟩

def batchP2W : RawBatch :=
  ⟨some ["p2a"], some ["10-K"], some ["2024-01-01"], some ["e2"]⟩

def batchP3W : RawBatch :=
  ⟨some ["p3a"], some ["10-K"], some ["2023-01-01"], some ["e3"]⟩

def subW : SubmissionsIndex := ⟨batchRecentW, ["pg1", "pg2", "pg3"]⟩

/-- A mixed batch: one record before the cutoff, one after it, one with
an unparseable date. -/
def batchW : RawBatch :=
  ⟨some ["a1", "a2", "a3"], some ["10-K", "10-Q", "10-K"],
   some ["2024-01-01", "2024-06-01", "garbage"], some ["r1", "r2", "r3"]⟩

/-- A healthy registry: resolvable search, a three-page submissions
index, every page fetchable, manifests empty. -/
def envW : Env :=
  ⟨fun _ => ⟨200, some "320193"⟩, fun _ => some subW,
   fun n => if n == "pg1" then some batchP1W
     else if n == "pg2" then some batchP2W
     else if n == "pg3" then some batchP3W else none,
   fun _ _ => ⟨200, none⟩, strptimeYmd, 20990101⟩

def subFail : SubmissionsIndex := ⟨batchRecentW, ["pa", "pb"]⟩

/-- Like `envW`, but the first overflow page's fetch fails. -/
def envFail : Env :=
  ⟨fun _ => ⟨200, some "320193"⟩, fun _ => some subFail,
   fun n => if n == "pb" then some batchP2W else none,
   fun _ _ => ⟨200, none⟩, strptimeYmd, 20990101⟩

/-- A search endpoint whose first hit's raw id has 11 characters. -/
def searchLong : String → SearchResp := fun _ => ⟨200, some "12345678901"⟩

/-! ## Counterexamples and witnesses -/

/-- C2 counterexample to the claim as stated: the batch `batchG` yields
zero parseable dates, yet under the active cutoff 5 (with now = 10) the
flag is `true`, because the unparseable date stands in as "now"; and
under the future cutoff 20 the unparseable-date record is *not* kept,
so "always within the window" also fails as stated. -/
theorem c2_counterexample :
    strptimeYmd "garbage" = none
    ∧ (_extract_filings envStub batchG [] (some 5)).2 = true
    ∧ (_extract_filings envStub batchG [] (some 20)).1 = [] := by
  refine ⟨by decide, by decide, by decide⟩

/-- C2 witness: on `batchW` with cutoff 2024-03-01, the on/after-cutoff
record and the unparseable-date record are both kept. -/
theorem c2_witness :
    ((⟨"a2", "10-Q", "2024-06-01", "r2"⟩ : Filing)
        ∈ (_extract_filings envW batchW [] (some 20240301)).1)
    ∧ ((⟨"a3", "10-K", "garbage", "r3"⟩ : Filing)
        ∈ (_extract_filings envW batchW [] (some 20240301)).1) := by
  have h := c2_extract_batch envW batchW [] 20240301
  exact ⟨h.2.2.1 1 "a2" "2024-06-01" "10-Q" "r2"
      (by decide) (by decide) (by decide) (by decide) (by decide),
    h.2.2.2.1 (by decide) 2 "a3" "garbage" "10-K" "r3"
      (by decide) (by decide) (by decide) (by decide) (by decide)⟩

/-- C1 witness: against `envW` with cutoff 2024-03-01, exactly the
index plus pages `pg1` and `pg2` are requested — `pg2`'s batch is the
first not-within-window one, so `pg3` is never fetched. -/
theorem c1_witness :
    (get_filings envW "0000320193" (some 20240301)).2
      = [NetCall.subIndex "0000320193", NetCall.page "pg1", NetCall.page "pg2"] := by
  have h := (c1_overflow_pagination envW "0000320193" subW rfl).2.2 20240301
    (by decide) (by decide)
  rw [h]
  decide

/-- C10 witness: against `envFail` the failed page `pa` is skipped and
the older page `pb` is still requested. -/
theorem c10_witness :
    NetCall.page "pb" ∈ (get_filings envFail "c" (some 20240301)).2 :=
  (c10_failed_page_continues envFail "c" subFail 20240301 "pa" ["pb"]
    rfl rfl (by decide) rfl).2.2 "pb" [] rfl

/-- C3 counterexample to the claim as stated: with an unresolvable
ticker, `get_stock` returns a present stock (not absent) and the
submissions-index request for the empty identifier is still issued. -/
theorem c3_counterexample :
    (get_stock (some envStub) [] "TSLA" 10).1 ≠ none
    ∧ NetCall.subIndex "" ∈ (get_stock (some envStub) [] "TSLA" 10).2.2 := by
  refine ⟨by decide, by decide⟩

/-- C3 witness for the amended claim. -/
theorem c3_witness :
    ∃ s : StockVal, (get_stock (some envStub) [] "MSFT" 7).1 = some s
      ∧ s.cik = "" ∧ s.filings = []
      ∧ (get_stock (some envStub) [] "MSFT" 7).2.2
          = [NetCall.search (pyUpper "MSFT"), NetCall.subIndex ""] :=
  c3_unresolved_builds_empty envStub [] "MSFT" 7 (by decide) rfl rfl

/-- C6 witness: a 404 manifest is a hard error; a 200 manifest with no
report root is an empty mapping. -/
theorem c6_witness :
    get_filing_data envStub "0000320193" "0000320193-24-000001" = Except.error 404
    ∧ get_filing_data envW "0000320193" "0000320193-24-000001" = Except.ok [] :=
  ⟨(c6_manifest_error_vs_empty envStub "0000320193" "0000320193-24-000001").1
      404 (by norm_num) (by norm_num) rfl,
   (c6_manifest_error_vs_empty envW "0000320193" "0000320193-24-000001").2 rfl rfl⟩

/-- C7 counterexample to the claim as stated: an 11-character raw id is
returned unpadded, so the result is neither empty nor 10 characters. -/
theorem c7_counterexample :
    get_cik searchLong "X" ≠ "" ∧ (get_cik searchLong "X").length ≠ 10 := by
  refine ⟨by decide, by decide⟩

/-- C7 witness: a 6-character raw id is padded to exactly 10. -/
theorem c7_witness : (get_cik envW.search "T").length = 10 :=
  (c7_cik_padding envW.search "T").2 "320193" rfl rfl (by decide)

def rawG : RawReport :=
  ⟨some "BS", some "004 - Statement - Balance Sheet", some "R2.htm", none⟩

/-- A malformed entry: its long name has no `" - "` separator. -/
def rawM : RawReport := ⟨some "Doc", some "Document", some "R1.htm", none⟩

/-- The trailing "all reports" summary entry. -/
def rawLast : RawReport := ⟨some "All", some "All Reports", some "RAll.htm", none⟩

/-- A registry whose manifest lists a good entry, a malformed one, and
the trailing summary entry. -/
def envM8 : Env :=
  ⟨fun _ => ⟨200, none⟩, fun _ => none, fun _ => none,
   fun _ _ => ⟨200, some [rawG, rawM, rawLast]⟩, strptimeYmd, 0⟩

/-- C8 witness: the malformed entry is skipped, the example long name
is categorized under `"statement"`, and the indexing call still
succeeds with the surviving category. -/
theorem c8_witness :
    parseReports "b" ([rawG] ++ rawM :: []) = parseReports "b" ([rawG] ++ [])
    ∧ parseReports "b"
        [⟨some "BS", some "004 - Statement - Balance Sheet", some "R2.htm", none⟩]
        = [(pyLower (pyStrip "Statement"),
            [⟨"BS", "004 - Statement - Balance Sheet", "b" ++ "/" ++ "R2.htm"⟩])]
    ∧ get_filing_data envM8 "320193" "acc"
        = Except.ok (parseReports (filingBaseUrl "320193" "acc") ([rawG] ++ [])) := by
  have h := c8_category_derivation
  exact ⟨h.1 "b" [rawG] [] rawM "Document" rfl (by decide),
    h.2.1 "b" "BS" "004 - Statement - Balance Sheet" "R2.htm" none "Statement"
      (by decide),
    h.2.2.2 envM8 "320193" "acc" [rawG] [] rawM rawLast "Document" rfl rfl rfl
      (by decide)⟩

/-- C9 witness: the exact five-label first column is discarded. -/
theorem c9_witness :
    ("T", EXPECTED_FIRST_COLUMN) ∉ removeXbrlTables [("T", EXPECTED_FIRST_COLUMN)] := by
  intro hmem
  have h := (c9_xbrl_noise_filter ("T", EXPECTED_FIRST_COLUMN)
      [("T", EXPECTED_FIRST_COLUMN)]).1.mp hmem
  exact h.2 rfl
